import Mathlib

/-!
Verification of the declaration-grammar layer of the `vhdl_parser` crate
(`src/vhdl_parser/src/attributes.rs` and `src/vhdl_parser/src/subprogram.rs`).

The parsing routines take a `&mut TokenStream` and return
`ParseResult<T> = Result<T, SyntaxError>`; the cursor keeps whatever
position it reached even when a routine fails.  We embed this as a state
monad over the remaining token list whose value channel is
`Except SyntaxError`: `ParseM α = List Token → Except SyntaxError α × List Token`.
Loops in the source become fuel-indexed recursion, with fuel taken from the
stream length at loop entry (every iteration consumes at least one token).

External collaborators that are not part of the two source files
(the token stream, the name / expression / parameter-list /
declarative-part / statement grammars) are modelled from the spec and
carry a doc comment saying so.
-/

namespace Vhdl

/-- Token kinds: the lexical categories used by the two grammar modules
(`tokenizer::Kind` in the source). -/
inductive Kind where
  | Entity | Architecture | Configuration | Package | Signal | Variable
  | Procedure | Function
  | Identifier | StringLiteral | AbstractLiteral
  | Comma | Colon | SemiColon | LeftSquare | RightSquare | LeftPar | RightPar | Dot
  | Return | Attribute | Of | Is | Others | All | Impure | End | Begin
  deriving DecidableEq, Repr

/-- A classified token: kind, literal payload (identifier or string text,
empty when irrelevant) and source position. -/
structure Token where
  kind : Kind
  value : String
  pos : Nat
  deriving DecidableEq, Repr

/-- A syntax error: human-readable message plus the source position it
refers to (`message::Message` restricted to what the core produces). -/
structure SyntaxError where
  pos : Nat
  msg : String
  deriving DecidableEq, Repr

/-- A syntactic value paired with the position of the token that
introduced it (`source::WithPos`). -/
structure WithPos (α : Type) where
  item : α
  pos : Nat
  deriving DecidableEq, Repr

/-- `WithPos::map_into` from the source: map the item, keep the position. -/
def WithPos.map_into (w : WithPos α) (f : α → β) : WithPos β :=
  ⟨f w.item, w.pos⟩

/-- The parsing monad: Rust's `(&mut TokenStream) -> ParseResult<α>`.
The stream state survives failure, exactly as a `&mut` borrow does. -/
def ParseM (α : Type) : Type :=
  List Token → Except SyntaxError α × List Token

instance : Monad ParseM where
  pure a := fun ts => (.ok a, ts)
  bind x f := fun ts =>
    match x ts with
    | (.ok a, ts') => f a ts'
    | (.error e, ts') => (.error e, ts')

/-- Run a parser on a token list, returning the result and the final stream. -/
def runP (p : ParseM α) (ts : List Token) : Except SyntaxError α × List Token :=
  p ts

/-- Fail with a syntax error (the `Err(...)` channel of `ParseResult`). -/
def throwP (e : SyntaxError) : ParseM α :=
  fun ts => (.error e, ts)

/-- Read the current stream state (used to size loop fuel). -/
def getTokens : ParseM (List Token) :=
  fun ts => (.ok ts, ts)

/-- Error produced by the stream when a required token is missing at end
of input. -/
def eofError : SyntaxError :=
  ⟨0, "Unexpected end of file"⟩

/-- Error produced when loop fuel runs out; unreachable on any run that
starts with fuel at least the stream length plus one, since every loop
iteration consumes at least one token. -/
def fuelError : SyntaxError :=
  ⟨0, "Out of fuel"⟩

/-- Printable name of a kind, used in expected-token diagnostics. -/
def kindName : Kind → String
  | .Entity => "entity" | .Architecture => "architecture"
  | .Configuration => "configuration" | .Package => "package"
  | .Signal => "signal" | .Variable => "variable"
  | .Procedure => "procedure" | .Function => "function"
  | .Identifier => "identifier" | .StringLiteral => "string literal"
  | .AbstractLiteral => "abstract literal"
  | .Comma => "comma" | .Colon => "colon" | .SemiColon => "semicolon"
  | .LeftSquare => "left square bracket" | .RightSquare => "right square bracket"
  | .LeftPar => "left parenthesis" | .RightPar => "right parenthesis"
  | .Dot => "dot" | .Return => "return" | .Attribute => "attribute"
  | .Of => "of" | .Is => "is" | .Others => "others" | .All => "all"
  | .Impure => "impure" | .End => "end" | .Begin => "begin"

/-- The dispatch primitive's fallback diagnostic: expected-vs-found,
reported at the offending token's position (`try_token_kind!`
fallthrough). -/
def unexpected_token (t : Token) (expected : String) : SyntaxError :=
  ⟨t.pos, "Expected " ++ expected⟩

/-- Modelled from the spec: token stream `peekKind` — lookahead without
consuming, `none` at end of input. -/
def peek_kind : ParseM (Option Kind) :=
  fun ts => (.ok (ts.head?.map Token.kind), ts)

/-- Modelled from the spec: token stream `peekExpect` — lookahead,
failing if at end of input; does not consume. -/
def peek_expect : ParseM Token :=
  fun ts =>
    match ts with
    | [] => (.error eofError, [])
    | t :: _ => (.ok t, ts)

/-- Modelled from the spec: token stream `expect` — consume and return
the next token, failing at end of input. -/
def expect : ParseM Token :=
  fun ts =>
    match ts with
    | [] => (.error eofError, [])
    | t :: rest => (.ok t, rest)

/-- Modelled from the spec: token stream `expectKind` — consume the next
token, failing if its kind differs from the requested one. -/
def expect_kind (k : Kind) : ParseM Token := do
  let t ← expect
  if t.kind = k then pure t
  else throwP (unexpected_token t (kindName k))

/-- Modelled from the spec: token stream `expectIdentifier` — consume,
failing if the token is not an identifier; yields the position-tagged
identifier text. -/
def expect_ident : ParseM (WithPos String) := do
  let t ← expect
  if t.kind = .Identifier then pure ⟨t.value, t.pos⟩
  else throwP (unexpected_token t (kindName .Identifier))

/-- Modelled from the spec: token stream `moveAfter` — advance the cursor
just past an already-peeked token (all call sites peeked the head). -/
def move_after (_ : Token) : ParseM Unit :=
  fun ts => (.ok (), ts.drop 1)

/-- Modelled from the spec: token stream `popIfKind` — consume and return
the next token only if it has the requested kind, else leave the cursor
untouched. -/
def pop_if_kind (k : Kind) : ParseM (Option Token) :=
  fun ts =>
    match ts with
    | [] => (.ok none, [])
    | t :: rest => if t.kind = k then (.ok (some t), rest) else (.ok none, ts)

/-- A designator — either a plain identifier or an operator symbol
(`ast::Designator`). -/
inductive Designator where
  | Identifier (s : String)
  | OperatorSymbol (s : String)
  deriving DecidableEq, Repr

/-- A selected (possibly dot-separated) name: the type-mark shape produced
by the external name grammar; modelled as its nonempty list of
position-tagged parts. -/
abbrev SelName := List (WithPos String)

/-- A bracketed signature (`ast::Signature`): `Procedure(type marks)` or
`Function(type marks, return mark)`. -/
inductive Signature where
  | Procedure (type_marks : List SelName)
  | Function (type_marks : List SelName) (return_mark : SelName)
  deriving DecidableEq, Repr

/-- `ast::EntityTag`: a designator plus an optional signature. -/
structure EntityTag where
  designator : WithPos Designator
  signature : Option Signature
  deriving DecidableEq, Repr

/-- `ast::EntityName`: target of an attribute specification. -/
inductive EntityName where
  | Name (tag : EntityTag)
  | Others
  | All
  deriving DecidableEq, Repr

/-- `ast::EntityClass`: the closed enumeration of attribute target
categories. -/
inductive EntityClass where
  | Entity | Architecture | Configuration | Package
  | Signal | Variable | Procedure | Function
  deriving DecidableEq, Repr

/-- Modelled from the spec: the external expression grammar's node type,
restricted to single-token expressions (a name or an abstract literal). -/
inductive Expr where
  | Name (s : String)
  | Lit (s : String)
  deriving DecidableEq, Repr

/-- `ast::AttributeDeclaration`. -/
structure AttributeDeclaration where
  ident : WithPos String
  type_mark : SelName
  deriving DecidableEq, Repr

/-- `ast::AttributeSpecification`. -/
structure AttributeSpecification where
  ident : WithPos String
  entity_name : EntityName
  entity_class : EntityClass
  expr : Expr
  deriving DecidableEq, Repr

/-- `ast::Attribute`: declaration or specification node. -/
inductive Attribute where
  | Declaration (decl : AttributeDeclaration)
  | Specification (spec : AttributeSpecification)
  deriving DecidableEq, Repr

/-- Modelled from the spec: an element of the external
parameter-interface-list grammar's output (only the empty list is
exercised by this development). -/
structure InterfaceDecl where
  ident : WithPos String
  deriving DecidableEq, Repr

/-- `ast::ProcedureSpecification`: designator and parameter list; no
purity field. -/
structure ProcedureSpecification where
  designator : WithPos Designator
  parameter_list : List InterfaceDecl
  deriving DecidableEq, Repr

/-- `ast::FunctionSpecification`: purity flag, designator, parameter list
and return type. -/
structure FunctionSpecification where
  pure : Bool
  designator : WithPos Designator
  parameter_list : List InterfaceDecl
  return_type : SelName
  deriving DecidableEq, Repr

/-- `ast::SubprogramDeclaration`. -/
inductive SubprogramDeclaration where
  | Procedure (spec : ProcedureSpecification)
  | Function (spec : FunctionSpecification)
  deriving DecidableEq, Repr

/-- Modelled from the spec: an item of the external declarative-part
grammar's output (only the empty declarative part is exercised). -/
inductive DeclItem where
  | mk
  deriving DecidableEq, Repr

/-- Modelled from the spec: a sequential statement produced by the
external statement grammar (only the empty sequence is exercised). -/
inductive Stmt where
  | mk
  deriving DecidableEq, Repr

/-- `ast::SubprogramBody`: specification plus declarations and
statements. -/
structure SubprogramBody where
  specification : SubprogramDeclaration
  declarations : List DeclItem
  statements : List Stmt
  deriving DecidableEq, Repr

/-- `ast::Declaration`, restricted to the two variants produced by
`parse_subprogram`. -/
inductive Declaration where
  | SubprogramDeclaration (decl : SubprogramDeclaration)
  | SubprogramBody (body : SubprogramBody)
  deriving DecidableEq, Repr

/-- Modelled from the spec: loop of the external name grammar's
`parse_selected_name` — while the next token is a dot, consume it and the
following identifier, appending the part. -/
def selectedNameLoop : Nat → List (WithPos String) → ParseM SelName
  | 0, _ => throwP fuelError
  | fuel + 1, acc => do
    let pk ← peek_kind
    if pk = some .Dot then do
      let _ ← expect_kind .Dot
      let part ← expect_ident
      selectedNameLoop fuel (acc ++ [part])
    else
      pure acc

/-- Modelled from the spec: the external name grammar's
`parse_selected_name` — a leading identifier followed by zero or more
dot-identifier pairs. -/
def parse_selected_name : ParseM SelName := do
  let first ← expect_ident
  let ts ← getTokens
  selectedNameLoop (ts.length + 1) [first]

/-- Modelled from the spec: the external expression grammar's
`parse_expression`, restricted to single-token expressions — an
identifier yields a name, an abstract literal a literal; anything else is
a syntax error. -/
def parse_expression : ParseM Expr := do
  let t ← expect
  match t.kind with
  | .Identifier => pure (Expr.Name t.value)
  | .AbstractLiteral => pure (Expr.Lit t.value)
  | _ => throwP (unexpected_token t "expression")

/-- Modelled from the spec: the external parameter-interface-list grammar
(`parse_parameter_interface_list`), restricted to the empty list — a left
parenthesis immediately closed by a right parenthesis. -/
def parse_parameter_interface_list : ParseM (List InterfaceDecl) := do
  let _ ← expect_kind .LeftPar
  let _ ← expect_kind .RightPar
  pure []

/-- Modelled from the spec: the external declarative-part grammar
(`parse_declarative_part` with `begin_is_end = true`), restricted to the
empty declarative part — consumes the `begin` keyword terminating it and
returns no declarations. -/
def parse_declarative_part : ParseM (List DeclItem) := do
  let _ ← expect_kind .Begin
  pure []

/-- Modelled from the spec: the external statement grammar
(`parse_labeled_sequential_statements`), restricted to the empty
statement sequence — consumes and returns the terminating token together
with no statements. -/
def parse_labeled_sequential_statements : ParseM (List Stmt × Token) := do
  let t ← expect
  pure ([], t)

/-- `attributes.rs::parse_entity_class`: consume one token and dispatch
to the fixed entity-class enumeration; any other kind is an
unexpected-token error. -/
def parse_entity_class : ParseM EntityClass := do
  let token ← expect
  match token.kind with
  | .Entity => pure EntityClass.Entity
  | .Architecture => pure EntityClass.Architecture
  | .Configuration => pure EntityClass.Configuration
  | .Package => pure EntityClass.Package
  | .Signal => pure EntityClass.Signal
  | .Variable => pure EntityClass.Variable
  | .Procedure => pure EntityClass.Procedure
  | .Function => pure EntityClass.Function
  | _ => throwP (unexpected_token token "entity class")

/-- Loop of `subprogram.rs::parse_signature`, fuel-indexed: peeks the
next token; an identifier starts a type mark whose separator must be a
comma (continue), right square (stop) or `return` (duplicate check, then
capture the return mark and continue); a leading `return` does the same
duplicate check and capture; a right square stops.  The accumulated
state mirrors the source's `type_marks` vector and `return_mark`
option. -/
def signatureLoop : Nat → List SelName → Option SelName → ParseM Signature
  | 0, _, _ => throwP fuelError
  | fuel + 1, type_marks, return_mark => do
    let token ← peek_expect
    match token.kind with
    | .Identifier => do
      let tm ← parse_selected_name
      let sep_token ← expect
      match sep_token.kind with
      | .Comma => signatureLoop fuel (type_marks ++ [tm]) return_mark
      | .RightSquare =>
        pure (match return_mark with
          | some rm => Signature.Function (type_marks ++ [tm]) rm
          | none => Signature.Procedure (type_marks ++ [tm]))
      | .Return =>
        if return_mark.isSome then
          throwP ⟨sep_token.pos, "Duplicate return in signature"⟩
        else do
          let rm ← parse_selected_name
          signatureLoop fuel (type_marks ++ [tm]) (some rm)
      | _ => throwP (unexpected_token sep_token "comma, right square bracket or return")
    | .Return =>
      if return_mark.isSome then
        throwP ⟨token.pos, "Duplicate return in signature"⟩
      else do
        move_after token
        let rm ← parse_selected_name
        signatureLoop fuel type_marks (some rm)
    | .RightSquare => do
      move_after token
      pure (match return_mark with
        | some rm => Signature.Function type_marks rm
        | none => Signature.Procedure type_marks)
    | _ => throwP (unexpected_token token "identifier, return or right square bracket")

/-- `subprogram.rs::parse_signature`: a required left square bracket,
then the loop above; the result is `Function` exactly when a return mark
was captured, else `Procedure`. -/
def parse_signature : ParseM Signature := do
  let _ ← expect_kind .LeftSquare
  let ts ← getTokens
  signatureLoop (ts.length + 1) [] none

/-- Loop of the identifier branch of
`attributes.rs::parse_entity_name_list`, fuel-indexed: each iteration
parses a designator, an optional bracketed signature (present iff the
next token is a left square bracket), appends `EntityName::Name`, then
peeks the separator — a comma is consumed and the loop continues, a
colon stops the loop without being consumed, anything else is a syntax
error. -/
def entityNameLoop : Nat → List EntityName → ParseM (List EntityName)
  | 0, _ => throwP fuelError
  | fuel + 1, acc => do
    let designator ← expect_ident
    let pk ← peek_kind
    let signature ←
      if pk = some .LeftSquare then do
        let s ← parse_signature
        pure (some s)
      else
        pure none
    let acc := acc ++ [EntityName.Name ⟨designator.map_into Designator.Identifier, signature⟩]
    let sep_token ← peek_expect
    match sep_token.kind with
    | .Comma => do
      move_after sep_token
      entityNameLoop fuel acc
    | .Colon => pure acc
    | _ => throwP (unexpected_token sep_token "comma or colon")

/-- `attributes.rs::parse_entity_name_list`: peeks one token — an
identifier enters the loop above, `others` and `all` are consumed and
yield the matching one-element list, anything else is a syntax error. -/
def parse_entity_name_list : ParseM (List EntityName) := do
  let token ← peek_expect
  match token.kind with
  | .Identifier => do
    let ts ← getTokens
    entityNameLoop (ts.length + 1) []
  | .Others => do
    move_after token
    pure [EntityName.Others]
  | .All => do
    move_after token
    pure [EntityName.All]
  | _ => throwP (unexpected_token token "identifier, others or all")

/-- `attributes.rs::parse_attribute`: the `attribute` keyword and an
identifier, then dispatch — a colon gives the declaration form (type
mark, semicolon, one `Declaration` node); `of` gives the specification
form (entity-name list, colon, entity class, `is`, expression,
semicolon), expanded into one `Specification` node per entity name, all
sharing the identifier, class and expression. -/
def parse_attribute : ParseM (List Attribute) := do
  let _ ← expect_kind .Attribute
  let ident ← expect_ident
  let token ← expect
  match token.kind with
  | .Colon => do
    let type_mark ← parse_selected_name
    let _ ← expect_kind .SemiColon
    pure [Attribute.Declaration ⟨ident, type_mark⟩]
  | .Of => do
    let entity_names ← parse_entity_name_list
    let _ ← expect_kind .Colon
    let entity_class ← parse_entity_class
    let _ ← expect_kind .Is
    let expr ← parse_expression
    let _ ← expect_kind .SemiColon
    pure (entity_names.map fun entity_name =>
      Attribute.Specification ⟨ident, entity_name, entity_class, expr⟩)
  | _ => throwP (unexpected_token token "colon or of")

/-- `subprogram.rs::parse_designator`: consume one token — an identifier
yields `Designator::Identifier`, a string literal
`Designator::OperatorSymbol`, anything else is a syntax error. -/
def parse_designator : ParseM (WithPos Designator) := do
  let token ← expect
  match token.kind with
  | .Identifier => pure ⟨Designator.Identifier token.value, token.pos⟩
  | .StringLiteral => pure ⟨Designator.OperatorSymbol token.value, token.pos⟩
  | _ => throwP (unexpected_token token "identifier or string literal")

/-- `subprogram.rs::parse_subprogram_declaration_no_semi`: one token
decides the kind (`procedure`, `function`, or `impure` followed by a
required `function`), then a designator, an optional parenthesized
parameter list (present iff the next token is a left parenthesis), and —
for functions only — a required `return` and return type. -/
def parse_subprogram_declaration_no_semi : ParseM SubprogramDeclaration := do
  let token ← expect
  let fp : Bool × Bool ←
    match token.kind with
    | .Procedure => pure (false, false)
    | .Function => pure (true, true)
    | .Impure => do
      let _ ← expect_kind .Function
      pure (true, false)
    | _ => throwP (unexpected_token token "procedure, function or impure")
  let designator ← parse_designator
  let pk ← peek_kind
  let parameter_list ←
    if pk = some .LeftPar then
      parse_parameter_interface_list
    else
      pure []
  if fp.1 then do
    let _ ← expect_kind .Return
    let return_type ← parse_selected_name
    pure (SubprogramDeclaration.Function
      ⟨fp.2, designator, parameter_list, return_type⟩)
  else
    pure (SubprogramDeclaration.Procedure ⟨designator, parameter_list⟩)

/-- `subprogram.rs::parse_subprogram_declaration`: runs the no-semicolon
rule WITHOUT the `?` operator, then `expect_kind(SemiColon)?`, then
returns the saved result — so the semicolon expectation runs (and can
itself fail) even when the saved result is already an error. -/
def parse_subprogram_declaration : ParseM SubprogramDeclaration :=
  fun ts =>
    let res := parse_subprogram_declaration_no_semi ts
    match expect_kind .SemiColon res.2 with
    | (.ok _, ts') => (res.1, ts')
    | (.error e, ts') => (.error e, ts')

/-- `subprogram.rs::parse_subprogram_body`: the terminal keyword kind is
chosen from the specification's variant; the declarative part and the
labeled statement sequence are delegated; the statement grammar's
terminating token must be `end`, after which the terminal keyword, an
identifier and a string literal are each optionally consumed in that
order, and a semicolon is required. -/
def parse_subprogram_body (specification : SubprogramDeclaration) :
    ParseM SubprogramBody := do
  let end_kind :=
    match specification with
    | .Procedure _ => Kind.Procedure
    | .Function _ => Kind.Function
  let declarations ← parse_declarative_part
  let stp ← parse_labeled_sequential_statements
  let statements := stp.1
  let end_token := stp.2
  match end_token.kind with
  | .End => do
    let _ ← pop_if_kind end_kind
    let _ ← pop_if_kind .Identifier
    let _ ← pop_if_kind .StringLiteral
    let _ ← expect_kind .SemiColon
    pure ⟨specification, declarations, statements⟩
  | _ => throwP (unexpected_token end_token "end")

/-- `subprogram.rs::parse_subprogram`: parse the specification without
semicolon, then dispatch — `is` continues into a subprogram body, a
semicolon yields a bare declaration, anything else is a syntax error. -/
def parse_subprogram : ParseM Declaration := do
  let specification ← parse_subprogram_declaration_no_semi
  let token ← expect
  match token.kind with
  | .Is => do
    let body ← parse_subprogram_body specification
    pure (Declaration.SubprogramBody body)
  | .SemiColon => pure (Declaration.SubprogramDeclaration specification)
  | _ => throwP (unexpected_token token "is or semicolon")

/-- An identifier token with payload `s` (position 0). -/
def identT (s : String) : Token :=
  ⟨.Identifier, s, 0⟩

/-- A payload-free token of kind `k` at position 0. -/
def tk0 (k : Kind) : Token :=
  ⟨k, "", 0⟩

/-- Token form of a comma-continued identifier list: for each name, a
comma followed by the identifier.  `identT n :: commaContIdents ns` is
the token form of the source list `n, ns₁, …, nsₖ`. -/
def commaContIdents : List String → List Token
  | [] => []
  | n :: ns => tk0 .Comma :: identT n :: commaContIdents ns

/-- The one-part selected name an identifier token at position 0 parses
to. -/
def singleName (s : String) : SelName :=
  [⟨s, 0⟩]

/-- The entity name a bare identifier at position 0 parses to: a named
entity tag with no signature. -/
def nameTag (s : String) : EntityName :=
  EntityName.Name ⟨⟨Designator.Identifier s, 0⟩, none⟩

/-- The token kind whose `parse_entity_class` dispatch arm yields a given
entity class. -/
def classToken : EntityClass → Kind
  | .Entity => .Entity
  | .Architecture => .Architecture
  | .Configuration => .Configuration
  | .Package => .Package
  | .Signal => .Signal
  | .Variable => .Variable
  | .Procedure => .Procedure
  | .Function => .Function

/-- The terminal keyword kind `parse_subprogram_body` picks from its
specification argument (`end_kind` in the source). -/
def endKindOf : SubprogramDeclaration → Kind
  | .Procedure _ => .Procedure
  | .Function _ => .Function

/-- The continuation of `parse_attribute`'s `of` branch after the entity
name list has been parsed: colon, entity class, `is`, expression,
semicolon, then the expansion into one `Specification` per entity name.
Definitionally equal to the corresponding tail of `parse_attribute`. -/
def attrSpecContinuation (ident : WithPos String) : List EntityName → ParseM (List Attribute) :=
  fun entity_names => do
    let _ ← expect_kind .Colon
    let entity_class ← parse_entity_class
    let _ ← expect_kind .Is
    let expr ← parse_expression
    let _ ← expect_kind .SemiColon
    pure (entity_names.map fun entity_name =>
      Attribute.Specification ⟨ident, entity_name, entity_class, expr⟩)

theorem commaContIdents_length (ns : List String) :
    (commaContIdents ns).length = 2 * ns.length := by
  induction ns with
  | nil => rfl
  | cons n ns ih => simp [commaContIdents, ih]; ring

theorem runP_bind (p : ParseM α) (f : α → ParseM β) (ts : List Token) :
    runP (p >>= f) ts =
      match runP p ts with
      | (.ok a, ts') => runP (f a) ts'
      | (.error e, ts') => (.error e, ts') := rfl

theorem expect_kind_cons (k : Kind) (t : Token) (rest : List Token) :
    expect_kind k (t :: rest) =
      if t.kind = k then (Except.ok t, rest)
      else (Except.error (unexpected_token t (kindName k)), rest) := by
  by_cases h : t.kind = k
  · show (if t.kind = k then pure t else throwP (unexpected_token t (kindName k)) : ParseM Token) rest = _
    rw [if_pos h, if_pos h]; rfl
  · show (if t.kind = k then pure t else throwP (unexpected_token t (kindName k)) : ParseM Token) rest = _
    rw [if_neg h, if_neg h]; rfl

theorem attrSpecContinuation_run (x v : String) (c : EntityClass)
    (enames : List EntityName) (rest : List Token) :
    runP (attrSpecContinuation ⟨x, 0⟩ enames)
        (tk0 .Colon :: tk0 (classToken c) :: tk0 .Is ::
          ⟨.AbstractLiteral, v, 0⟩ :: tk0 .SemiColon :: rest)
      = (.ok (enames.map fun e => Attribute.Specification ⟨⟨x, 0⟩, e, c, .Lit v⟩), rest) := by
  cases c <;> rfl

theorem entityNameLoop_commaCont (ns : List String) :
    ∀ (fuel : Nat) (acc : List EntityName) (n : String) (rest : List Token),
      ns.length + 1 ≤ fuel →
      runP (entityNameLoop fuel acc)
          (identT n :: commaContIdents ns ++ tk0 .Colon :: rest)
        = (.ok (acc ++ nameTag n :: ns.map nameTag), tk0 .Colon :: rest) := by
  induction ns with
  | nil =>
    intro fuel acc n rest hfuel
    match fuel, hfuel with
    | fuel + 1, _ => rfl
  | cons m ns ih =>
    intro fuel acc n rest hfuel
    match fuel, hfuel with
    | fuel + 1, hfuel =>
      calc runP (entityNameLoop (fuel + 1) acc)
            (identT n :: commaContIdents (m :: ns) ++ tk0 .Colon :: rest)
          = runP (entityNameLoop fuel (acc ++ [nameTag n]))
              (identT m :: commaContIdents ns ++ tk0 .Colon :: rest) := rfl
        _ = (.ok ((acc ++ [nameTag n]) ++ nameTag m :: ns.map nameTag),
              tk0 .Colon :: rest) := ih fuel _ m rest (by simp only [List.length_cons] at hfuel; omega)
        _ = (.ok (acc ++ nameTag n :: (m :: ns).map nameTag), tk0 .Colon :: rest) := by
              simp

theorem signatureLoop_commaCont_return (ns : List String) :
    ∀ (fuel : Nat) (acc : List SelName) (n r : String) (rest : List Token),
      ns.length + 2 ≤ fuel →
      runP (signatureLoop fuel acc none)
          (identT n :: commaContIdents ns ++
            tk0 .Return :: identT r :: tk0 .RightSquare :: rest)
        = (.ok (Signature.Function (acc ++ singleName n :: ns.map singleName)
            (singleName r)), rest) := by
  induction ns with
  | nil =>
    intro fuel acc n r rest hfuel
    match fuel, hfuel with
    | fuel + 2, _ => rfl
  | cons m ns ih =>
    intro fuel acc n r rest hfuel
    match fuel, hfuel with
    | fuel + 1, hfuel =>
      calc runP (signatureLoop (fuel + 1) acc none)
            (identT n :: commaContIdents (m :: ns) ++
              tk0 .Return :: identT r :: tk0 .RightSquare :: rest)
          = runP (signatureLoop fuel (acc ++ [singleName n]) none)
              (identT m :: commaContIdents ns ++
                tk0 .Return :: identT r :: tk0 .RightSquare :: rest) := rfl
        _ = (.ok (Signature.Function ((acc ++ [singleName n]) ++ singleName m :: ns.map singleName)
              (singleName r)), rest) := ih fuel _ m r rest (by simp only [List.length_cons] at hfuel; omega)
        _ = (.ok (Signature.Function (acc ++ singleName n :: (m :: ns).map singleName)
              (singleName r)), rest) := by simp

theorem signatureLoop_commaCont_noreturn (ns : List String) :
    ∀ (fuel : Nat) (acc : List SelName) (n : String) (rest : List Token),
      ns.length + 1 ≤ fuel →
      runP (signatureLoop fuel acc none)
          (identT n :: commaContIdents ns ++ tk0 .RightSquare :: rest)
        = (.ok (Signature.Procedure (acc ++ singleName n :: ns.map singleName)), rest) := by
  induction ns with
  | nil =>
    intro fuel acc n rest hfuel
    match fuel, hfuel with
    | fuel + 1, _ => rfl
  | cons m ns ih =>
    intro fuel acc n rest hfuel
    match fuel, hfuel with
    | fuel + 1, hfuel =>
      calc runP (signatureLoop (fuel + 1) acc none)
            (identT n :: commaContIdents (m :: ns) ++ tk0 .RightSquare :: rest)
          = runP (signatureLoop fuel (acc ++ [singleName n]) none)
              (identT m :: commaContIdents ns ++ tk0 .RightSquare :: rest) := rfl
        _ = (.ok (Signature.Procedure
              ((acc ++ [singleName n]) ++ singleName m :: ns.map singleName)), rest) :=
            ih fuel _ m rest (by simp only [List.length_cons] at hfuel; omega)
        _ = (.ok (Signature.Procedure (acc ++ singleName n :: (m :: ns).map singleName)),
              rest) := by simp

theorem parse_entity_name_list_commaCont (ns : List String) (n : String)
    (rest : List Token) :
    runP parse_entity_name_list (identT n :: commaContIdents ns ++ tk0 .Colon :: rest)
      = (.ok (nameTag n :: ns.map nameTag), tk0 .Colon :: rest) := by
  calc runP parse_entity_name_list (identT n :: commaContIdents ns ++ tk0 .Colon :: rest)
      = runP (entityNameLoop ((commaContIdents ns ++ tk0 .Colon :: rest).length + 2) [])
          (identT n :: commaContIdents ns ++ tk0 .Colon :: rest) := rfl
    _ = (.ok ([] ++ nameTag n :: ns.map nameTag), tk0 .Colon :: rest) :=
        entityNameLoop_commaCont ns _ [] n rest
          (by simp [commaContIdents_length]; omega)
    _ = (.ok (nameTag n :: ns.map nameTag), tk0 .Colon :: rest) := by simp

/-- C10: on the empty signature input `[]` (a left square bracket
immediately followed by a right square bracket), `parse_signature`
succeeds with `Signature.Procedure []` and consumes both brackets. -/
theorem parse_signature_empty_brackets (p q : Nat) (rest : List Token) :
    runP parse_signature (⟨.LeftSquare, "", p⟩ :: ⟨.RightSquare, "", q⟩ :: rest)
      = (.ok (Signature.Procedure []), rest) := rfl

/-- C9: `attribute X of others : C is E;` yields exactly one
`Specification` node with entity name `Others`, and likewise `all`
yields `All`. -/
theorem parse_attribute_others_and_all (x v : String) (rest : List Token) :
    runP parse_attribute
        (tk0 .Attribute :: identT x :: tk0 .Of :: tk0 .Others :: tk0 .Colon ::
          tk0 .Signal :: tk0 .Is :: ⟨.AbstractLiteral, v, 0⟩ :: tk0 .SemiColon :: rest)
      = (.ok [Attribute.Specification ⟨⟨x, 0⟩, .Others, .Signal, .Lit v⟩], rest)
    ∧ runP parse_attribute
        (tk0 .Attribute :: identT x :: tk0 .Of :: tk0 .All :: tk0 .Colon ::
          tk0 .Signal :: tk0 .Is :: ⟨.AbstractLiteral, v, 0⟩ :: tk0 .SemiColon :: rest)
      = (.ok [Attribute.Specification ⟨⟨x, 0⟩, .All, .Signal, .Lit v⟩], rest) :=
  ⟨rfl, rfl⟩

/-- C2: a signature with two `return` clauses fails with the
duplicate-return error reported at the position of the second `return`
token — whether no type mark precedes the first return (first
conjunct), a type mark precedes it (second conjunct), or the second
return is met as a type-mark separator (third conjunct). -/
theorem parse_signature_duplicate_return (p0 p1 p2 p3 p4 : Nat)
    (a u : String) (rest : List Token) :
    runP parse_signature
        (⟨.LeftSquare, "", p0⟩ :: ⟨.Return, "", p1⟩ :: ⟨.Identifier, a, p2⟩ ::
          ⟨.Return, "", p3⟩ :: rest)
      = (.error ⟨p3, "Duplicate return in signature"⟩, ⟨.Return, "", p3⟩ :: rest)
    ∧ runP parse_signature
        (⟨.LeftSquare, "", p0⟩ :: ⟨.Identifier, u, p4⟩ :: ⟨.Return, "", p1⟩ ::
          ⟨.Identifier, a, p2⟩ :: ⟨.Return, "", p3⟩ :: rest)
      = (.error ⟨p3, "Duplicate return in signature"⟩, ⟨.Return, "", p3⟩ :: rest)
    ∧ runP parse_signature
        (⟨.LeftSquare, "", p0⟩ :: ⟨.Return, "", p1⟩ :: ⟨.Identifier, a, p2⟩ ::
          ⟨.Identifier, u, p4⟩ :: ⟨.Return, "", p3⟩ :: rest)
      = (.error ⟨p3, "Duplicate return in signature"⟩, rest) :=
  ⟨rfl, rfl, rfl⟩

/-- C8: a token stream exhausted at a dispatch decision point always
produces the end-of-input error — for `parse_entity_name_list` and
`parse_signature` at their leading peek, for `parse_entity_name_list`
at the separator peek after a parsed tag, and for the kind-deciding
`expect` of `parse_subprogram_declaration_no_semi`.  All embedded rules
are total functions, so no input panics or yields an undefined
result. -/
theorem dispatch_on_exhausted_stream (n : String) (p : Nat) :
    runP parse_entity_name_list [] = (.error eofError, [])
    ∧ runP parse_signature [⟨.LeftSquare, "", p⟩] = (.error eofError, [])
    ∧ runP parse_entity_name_list [⟨.Identifier, n, p⟩] = (.error eofError, [])
    ∧ runP parse_signature [] = (.error eofError, [])
    ∧ runP parse_subprogram_declaration_no_semi [] = (.error eofError, []) :=
  ⟨rfl, rfl, rfl, rfl, rfl⟩

/-- C5: `parse_signature` yields the `Function` variant exactly when a
return mark was captured — `[T1, …, Tn return R]` gives
`Function([T1, …, Tn], R)`, `[T1, …, Tn]` gives
`Procedure([T1, …, Tn])`, and a `return` clause as the very first token
after the bracket also gives the `Function` variant. -/
theorem parse_signature_function_iff_return (n : String) (ns : List String)
    (r : String) (rest : List Token) :
    runP parse_signature
        (tk0 .LeftSquare :: identT n :: (commaContIdents ns ++
          tk0 .Return :: identT r :: tk0 .RightSquare :: rest))
      = (.ok (Signature.Function ((n :: ns).map singleName) (singleName r)), rest)
    ∧ runP parse_signature
        (tk0 .LeftSquare :: identT n :: (commaContIdents ns ++ tk0 .RightSquare :: rest))
      = (.ok (Signature.Procedure ((n :: ns).map singleName)), rest)
    ∧ runP parse_signature
        (tk0 .LeftSquare :: tk0 .Return :: identT r :: tk0 .RightSquare :: rest)
      = (.ok (Signature.Function [] (singleName r)), rest) := by
  refine ⟨?_, ?_, rfl⟩
  · calc runP parse_signature
          (tk0 .LeftSquare :: identT n :: (commaContIdents ns ++
            tk0 .Return :: identT r :: tk0 .RightSquare :: rest))
        = runP (signatureLoop
            ((identT n :: (commaContIdents ns ++
              tk0 .Return :: identT r :: tk0 .RightSquare :: rest)).length + 1) [] none)
            (identT n :: (commaContIdents ns ++
              tk0 .Return :: identT r :: tk0 .RightSquare :: rest)) := rfl
      _ = (.ok (Signature.Function ([] ++ singleName n :: ns.map singleName)
            (singleName r)), rest) :=
          signatureLoop_commaCont_return ns _ [] n r rest
            (by simp [commaContIdents_length]; omega)
      _ = (.ok (Signature.Function ((n :: ns).map singleName) (singleName r)), rest) := by
          simp
  · calc runP parse_signature
          (tk0 .LeftSquare :: identT n :: (commaContIdents ns ++ tk0 .RightSquare :: rest))
        = runP (signatureLoop
            ((identT n :: (commaContIdents ns ++ tk0 .RightSquare :: rest)).length + 1)
              [] none)
            (identT n :: (commaContIdents ns ++ tk0 .RightSquare :: rest)) := rfl
      _ = (.ok (Signature.Procedure ([] ++ singleName n :: ns.map singleName)), rest) :=
          signatureLoop_commaCont_noreturn ns _ [] n rest
            (by simp [commaContIdents_length]; omega)
      _ = (.ok (Signature.Procedure ((n :: ns).map singleName)), rest) := by simp

/-- C1: `attribute X of L1, …, Ln : C is E;` parses to exactly `n`
`Specification` nodes in source order — the list is the map over the
entity names, so every node carries the same identifier `X`, the same
class `C` and the same expression, and the i-th node's entity name is
`Li`; no shared-list node is produced. -/
theorem parse_attribute_specification_expansion (x n : String)
    (ns : List String) (c : EntityClass) (v : String) (rest : List Token) :
    runP parse_attribute
        (tk0 .Attribute :: identT x :: tk0 .Of :: identT n ::
          (commaContIdents ns ++ tk0 .Colon :: tk0 (classToken c) :: tk0 .Is ::
            ⟨.AbstractLiteral, v, 0⟩ :: tk0 .SemiColon :: rest))
      = (.ok ((n :: ns).map fun nm =>
          Attribute.Specification ⟨⟨x, 0⟩, nameTag nm, c, Expr.Lit v⟩), rest) := by
  calc runP parse_attribute
        (tk0 .Attribute :: identT x :: tk0 .Of :: identT n ::
          (commaContIdents ns ++ tk0 .Colon :: tk0 (classToken c) :: tk0 .Is ::
            ⟨.AbstractLiteral, v, 0⟩ :: tk0 .SemiColon :: rest))
      = runP (parse_entity_name_list >>= attrSpecContinuation ⟨x, 0⟩)
          (identT n :: commaContIdents ns ++ tk0 .Colon :: tk0 (classToken c) ::
            tk0 .Is :: ⟨.AbstractLiteral, v, 0⟩ :: tk0 .SemiColon :: rest) := rfl
    _ = runP (attrSpecContinuation ⟨x, 0⟩ (nameTag n :: ns.map nameTag))
          (tk0 .Colon :: tk0 (classToken c) :: tk0 .Is ::
            ⟨.AbstractLiteral, v, 0⟩ :: tk0 .SemiColon :: rest) := by
        rw [runP_bind, parse_entity_name_list_commaCont]
    _ = (.ok ((nameTag n :: ns.map nameTag).map fun e =>
          Attribute.Specification ⟨⟨x, 0⟩, e, c, .Lit v⟩), rest) :=
        attrSpecContinuation_run x v c _ rest
    _ = (.ok ((n :: ns).map fun nm =>
          Attribute.Specification ⟨⟨x, 0⟩, nameTag nm, c, Expr.Lit v⟩), rest) := by
        simp

/-- C4: purity round-trips — `procedure p;` yields the `Procedure`
variant (which has no purity field), `function f return t;` yields
`Function` with `pure = true`, `impure function f return t;` yields
`Function` with `pure = false`, and after `impure` the next token must
be `function` or the parse fails at that token. -/
theorem parse_subprogram_declaration_purity (pn fn tn v : String) (k : Kind)
    (q : Nat) (rest : List Token) (hk : k ≠ .Function) :
    runP parse_subprogram_declaration
        (tk0 .Procedure :: identT pn :: tk0 .SemiColon :: rest)
      = (.ok (SubprogramDeclaration.Procedure
          ⟨⟨Designator.Identifier pn, 0⟩, []⟩), rest)
    ∧ runP parse_subprogram_declaration
        (tk0 .Function :: identT fn :: tk0 .Return :: identT tn ::
          tk0 .SemiColon :: rest)
      = (.ok (SubprogramDeclaration.Function
          ⟨true, ⟨Designator.Identifier fn, 0⟩, [], singleName tn⟩), rest)
    ∧ runP parse_subprogram_declaration
        (tk0 .Impure :: tk0 .Function :: identT fn :: tk0 .Return :: identT tn ::
          tk0 .SemiColon :: rest)
      = (.ok (SubprogramDeclaration.Function
          ⟨false, ⟨Designator.Identifier fn, 0⟩, [], singleName tn⟩), rest)
    ∧ runP parse_subprogram_declaration_no_semi (tk0 .Impure :: ⟨k, v, q⟩ :: rest)
      = (.error ⟨q, "Expected function"⟩, rest) := by
  refine ⟨rfl, rfl, rfl, ?_⟩
  cases k <;> first | exact absurd rfl hk | rfl

theorem parse_subprogram_declaration_purity_witness :
    runP parse_subprogram_declaration_no_semi
        (tk0 .Impure :: ⟨.Procedure, "", 5⟩ :: [])
      = (.error ⟨5, "Expected function"⟩, []) :=
  (parse_subprogram_declaration_purity "p" "f" "t" "" .Procedure 5 []
    (by decide)).2.2.2

/-- C6: after the `end` token, `parse_subprogram_body` optionally
consumes — in this order, each independently optional — the terminal
keyword matching the specification's variant, a trailing identifier and
a trailing string literal, then requires a semicolon; the echoes are
not validated against the designator (the identifier and string are
arbitrary), and none, keyword only, keyword plus name, keyword plus
name plus string, and name without keyword all parse successfully,
while a token that is none of the echoes and not a semicolon fails. -/
theorem parse_subprogram_body_end_echoes (spec : SubprogramDeclaration)
    (nm s : String) (p : Nat) (rest : List Token) :
    runP (parse_subprogram_body spec)
        (tk0 .Begin :: tk0 .End :: tk0 .SemiColon :: rest)
      = (.ok ⟨spec, [], []⟩, rest)
    ∧ runP (parse_subprogram_body spec)
        (tk0 .Begin :: tk0 .End :: tk0 (endKindOf spec) :: tk0 .SemiColon :: rest)
      = (.ok ⟨spec, [], []⟩, rest)
    ∧ runP (parse_subprogram_body spec)
        (tk0 .Begin :: tk0 .End :: tk0 (endKindOf spec) :: identT nm ::
          tk0 .SemiColon :: rest)
      = (.ok ⟨spec, [], []⟩, rest)
    ∧ runP (parse_subprogram_body spec)
        (tk0 .Begin :: tk0 .End :: tk0 (endKindOf spec) :: identT nm ::
          ⟨.StringLiteral, s, 0⟩ :: tk0 .SemiColon :: rest)
      = (.ok ⟨spec, [], []⟩, rest)
    ∧ runP (parse_subprogram_body spec)
        (tk0 .Begin :: tk0 .End :: identT nm :: tk0 .SemiColon :: rest)
      = (.ok ⟨spec, [], []⟩, rest)
    ∧ runP (parse_subprogram_body spec)
        (tk0 .Begin :: tk0 .End :: ⟨.Comma, "", p⟩ :: rest)
      = (.error ⟨p, "Expected semicolon"⟩, rest) := by
  cases spec <;> exact ⟨rfl, rfl, rfl, rfl, rfl, rfl⟩

/-- C7: in the identifier branch of `parse_entity_name_list`, after a
parsed entity tag a comma is consumed and the loop continues with the
tag appended; a colon ends the loop WITHOUT being consumed — the colon
is still the head of the stream on return; any other separator token is
a syntax error (reported at it, leaving it unconsumed).  The last
conjunct ties the loop to `parse_entity_name_list` itself: the caller
receives the stream still pointing at the colon. -/
theorem entity_name_list_separator_step (fuel : Nat) (acc : List EntityName)
    (nm v : String) (p : Nat) (rest : List Token) (k : Kind)
    (hc : k ≠ .Comma) (hcol : k ≠ .Colon) (hls : k ≠ .LeftSquare) :
    runP (entityNameLoop (fuel + 1) acc) (identT nm :: ⟨.Comma, v, p⟩ :: rest)
      = runP (entityNameLoop fuel (acc ++ [nameTag nm])) rest
    ∧ runP (entityNameLoop (fuel + 1) acc) (identT nm :: ⟨.Colon, v, p⟩ :: rest)
      = (.ok (acc ++ [nameTag nm]), ⟨.Colon, v, p⟩ :: rest)
    ∧ runP (entityNameLoop (fuel + 1) acc) (identT nm :: ⟨k, v, p⟩ :: rest)
      = (.error ⟨p, "Expected comma or colon"⟩, ⟨k, v, p⟩ :: rest)
    ∧ runP parse_entity_name_list (identT nm :: ⟨.Colon, v, p⟩ :: rest)
      = (.ok [nameTag nm], ⟨.Colon, v, p⟩ :: rest) := by
  refine ⟨rfl, rfl, ?_, rfl⟩
  cases k <;>
    first
    | exact absurd rfl hc
    | exact absurd rfl hcol
    | exact absurd rfl hls
    | rfl

theorem entity_name_list_separator_step_witness :
    runP (entityNameLoop 1 []) (identT "e" :: ⟨.Is, "", 7⟩ :: [])
      = (.error ⟨7, "Expected comma or colon"⟩, ⟨.Is, "", 7⟩ :: []) :=
  (entity_name_list_separator_step 0 [] "e" "" 7 [] .Is
    (by decide) (by decide) (by decide)).2.2.1

/-- C3 counterexample: on `procedure :` the no-semicolon rule fails at
position 1 with a designator error, but `parse_subprogram_declaration`
returns a DIFFERENT error (the semicolon expectation hits end of
input), and with a trailing semicolon present the original error is
returned only after the semicolon has been consumed — so the claim that
the inner error propagates unchanged with no further token consumption
is false. -/
theorem parse_subprogram_declaration_error_replaced :
    runP parse_subprogram_declaration_no_semi
        [⟨.Procedure, "", 0⟩, ⟨.Colon, "", 1⟩]
      = (.error ⟨1, "Expected identifier or string literal"⟩, [])
    ∧ runP parse_subprogram_declaration [⟨.Procedure, "", 0⟩, ⟨.Colon, "", 1⟩]
      = (.error ⟨0, "Unexpected end of file"⟩, [])
    ∧ (SyntaxError.mk 1 "Expected identifier or string literal"
        ≠ SyntaxError.mk 0 "Unexpected end of file")
    ∧ runP parse_subprogram_declaration
        [⟨.Procedure, "", 0⟩, ⟨.Colon, "", 1⟩, ⟨.SemiColon, "", 2⟩]
      = (.error ⟨1, "Expected identifier or string literal"⟩, []) :=
  ⟨rfl, rfl, by decide, rfl⟩

/-- C3 amended: when the no-semicolon rule fails,
`parse_subprogram_declaration` still runs the semicolon expectation
from wherever the stream stopped — if the next token is a semicolon it
is consumed and the inner error is returned, otherwise the
missing-semicolon error (or the end-of-input error) replaces the inner
one. -/
theorem parse_subprogram_declaration_error_semicolon (ts ts1 : List Token)
    (e : SyntaxError)
    (h : runP parse_subprogram_declaration_no_semi ts = (.error e, ts1)) :
    (ts1 = [] →
      runP parse_subprogram_declaration ts = (.error eofError, []))
    ∧ (∀ t rest, ts1 = t :: rest → t.kind = .SemiColon →
        runP parse_subprogram_declaration ts = (.error e, rest))
    ∧ (∀ t rest, ts1 = t :: rest → t.kind ≠ .SemiColon →
        runP parse_subprogram_declaration ts =
          (.error (unexpected_token t (kindName .SemiColon)), rest)) := by
  have h' : parse_subprogram_declaration_no_semi ts = (.error e, ts1) := h
  refine ⟨?_, ?_, ?_⟩
  · intro h1
    subst h1
    show (match expect_kind .SemiColon (parse_subprogram_declaration_no_semi ts).2 with
          | (.ok _, ts') => ((parse_subprogram_declaration_no_semi ts).1, ts')
          | (.error e2, ts') => (.error e2, ts')) = _
    rw [h']
    rfl
  · intro t rest h1 hk
    subst h1
    show (match expect_kind .SemiColon (parse_subprogram_declaration_no_semi ts).2 with
          | (.ok _, ts') => ((parse_subprogram_declaration_no_semi ts).1, ts')
          | (.error e2, ts') => (.error e2, ts')) = _
    rw [h']
    show (match expect_kind .SemiColon (t :: rest) with
          | (.ok _, ts') => ((Except.error e : Except SyntaxError SubprogramDeclaration), ts')
          | (.error e2, ts') => (.error e2, ts')) = _
    rw [expect_kind_cons, if_pos hk]
  · intro t rest h1 hk
    subst h1
    show (match expect_kind .SemiColon (parse_subprogram_declaration_no_semi ts).2 with
          | (.ok _, ts') => ((parse_subprogram_declaration_no_semi ts).1, ts')
          | (.error e2, ts') => (.error e2, ts')) = _
    rw [h']
    show (match expect_kind .SemiColon (t :: rest) with
          | (.ok _, ts') => ((Except.error e : Except SyntaxError SubprogramDeclaration), ts')
          | (.error e2, ts') => (.error e2, ts')) = _
    rw [expect_kind_cons, if_neg hk]

theorem parse_subprogram_declaration_error_semicolon_witness :
    runP parse_subprogram_declaration
        [⟨.Procedure, "", 0⟩, ⟨.Colon, "", 1⟩, ⟨.Colon, "", 2⟩]
      = (.error ⟨2, "Expected semicolon"⟩, []) :=
  (parse_subprogram_declaration_error_semicolon
      [⟨.Procedure, "", 0⟩, ⟨.Colon, "", 1⟩, ⟨.Colon, "", 2⟩]
      [⟨.Colon, "", 2⟩] ⟨1, "Expected identifier or string literal"⟩
      rfl).2.2 ⟨.Colon, "", 2⟩ [] rfl (by decide)

end Vhdl
